import Mathlib

/-!
Verification of the deal-scraping / deal-filtering pipeline.

Shallow embedding of the TypeScript sources:
* `src/src/mastra/tools/dealFilteringTool.ts` (dedup hash, discount-math
  validation, heuristic suspicion detection, AI-response parsing, scoring,
  `filterDeals`),
* the web-scraping tool (site configs with their price parsers, and the
  per-listing extraction/normalization loop).

Modelling conventions:
* JavaScript numbers are modelled as exact rationals (`ℚ`); `Math.round` is
  `⌊x + 1/2⌋`, `Math.min`/`Math.max` are `min`/`max`.
* Strings are modelled by Lean `String`/`List Char`; the ASCII fragment of
  `toLowerCase`, `trim` and `\s` is implemented directly (all inputs of
  interest are ASCII).
* The AI provider call (network I/O) is abstracted as an oracle
  `Deal → Option PricingAnalysisResult`; `none` models the case where both
  providers fail, in which case the per-deal `catch` skips the deal.
* Fallible operations (regex match, JSON.parse) return `Option`.
-/

/- Batteries marks the `Rat` field operations `@[irreducible]`; restore
reducibility locally so that concrete witnesses can be checked by `decide`. -/
attribute [local semireducible] Rat.mul Rat.add Rat.sub Rat.inv Rat.ofScientific

/-! ## JavaScript number and string primitives -/

/-- JavaScript `Math.round` on an exact rational: round half toward +∞. -/
def jsRound (x : ℚ) : ℤ := (x + 1/2).floor

/-- `jsRound` as a rational (JS numbers stay numbers after rounding). -/
def jsRoundQ (x : ℚ) : ℚ := (jsRound x : ℤ)

/-- The whitespace class used for JS `\s` / `trim` (ASCII fragment). -/
def jsIsSpace (c : Char) : Bool := c.isWhitespace

/-- ASCII fragment of JS `String.prototype.toLowerCase` on one character. -/
def jsLowerChar (c : Char) : Char :=
  if 'A' ≤ c ∧ c ≤ 'Z' then Char.ofNat (c.toNat + 32) else c

/-- ASCII fragment of JS `String.prototype.toLowerCase`. -/
def jsToLower (s : String) : String := ⟨s.data.map jsLowerChar⟩

/-- JS `String.prototype.trim` on a character list. -/
def jsTrimList (l : List Char) : List Char :=
  ((l.dropWhile jsIsSpace).reverse.dropWhile jsIsSpace).reverse

/-- JS `String.prototype.trim`. -/
def jsTrim (s : String) : String := ⟨jsTrimList s.data⟩

/-- Decimal digits of a character list read as a natural number
(the value of JS `parseInt` on an all-digit string). -/
def digitsToNat (l : List Char) : ℕ :=
  l.foldl (fun n c => 10 * n + (c.toNat - '0'.toNat)) 0

/-- `pat` is a leading segment of `l` (used to implement `includes`). -/
def leadsWith : List Char → List Char → Bool
  | [], _ => true
  | _ :: _, [] => false
  | p :: ps, h :: hs => p = h && leadsWith ps hs

/-- JS `String.prototype.includes`: `pat` occurs somewhere inside `hay`. -/
def strHasSub (hay pat : List Char) : Bool :=
  match hay with
  | [] => pat.isEmpty
  | _ :: t => leadsWith pat hay || strHasSub t pat

/-- The next `n` characters exist and are decimal digits. -/
def leadsWithDigits : ℕ → List Char → Bool
  | 0, _ => true
  | _ + 1, [] => false
  | n + 1, c :: rest => c.isDigit && leadsWithDigits n rest

/-- JS `/\d{10,}/.test`: some position starts a run of ten digits. -/
def hasDigitRun10 : List Char → Bool
  | [] => false
  | c :: rest => leadsWithDigits 10 (c :: rest) || hasDigitRun10 rest

/-- JS number-to-string coercion, exact for the integral values the claims
exercise; the decimal formatting of non-integral numbers is abstracted. -/
def ratToJsString (q : ℚ) : String :=
  if q.den = 1 then toString q.num else toString q

/-! ## UTF-8 and base64 (for `Buffer.from(key).toString('base64')`) -/

/-- UTF-8 encoding of a single character (as byte values). -/
def utf8EncodeChar (c : Char) : List ℕ :=
  let n := c.toNat
  if n < 0x80 then [n]
  else if n < 0x800 then [0xC0 ||| (n >>> 6), 0x80 ||| (n &&& 0x3F)]
  else if n < 0x10000 then
    [0xE0 ||| (n >>> 12), 0x80 ||| ((n >>> 6) &&& 0x3F), 0x80 ||| (n &&& 0x3F)]
  else
    [0xF0 ||| (n >>> 18), 0x80 ||| ((n >>> 12) &&& 0x3F), 0x80 ||| ((n >>> 6) &&& 0x3F),
     0x80 ||| (n &&& 0x3F)]

/-- UTF-8 bytes of a string (`Buffer.from(key)`). -/
def utf8Bytes (s : String) : List ℕ := s.data.flatMap utf8EncodeChar

/-- The base64 alphabet. -/
def base64Alphabet : List Char :=
  "ABCDEFGHIJKLMNOPQRSTUVWXYZabcdefghijklmnopqrstuvwxyz0123456789+/".data

/-- Character of the base64 alphabet at a 6-bit index. -/
def b64c (n : ℕ) : Char := base64Alphabet.getD n 'A'

/-- Standard base64 encoding of a byte list, with `=` padding
(`Buffer.toString('base64')`). -/
def base64Encode : List ℕ → List Char
  | [] => []
  | [b1] => [b64c (b1 >>> 2), b64c ((b1 &&& 0x3) <<< 4), '=', '=']
  | [b1, b2] =>
    [b64c (b1 >>> 2), b64c (((b1 &&& 0x3) <<< 4) ||| (b2 >>> 4)),
     b64c ((b2 &&& 0xF) <<< 2), '=']
  | b1 :: b2 :: b3 :: rest =>
    b64c (b1 >>> 2) :: b64c (((b1 &&& 0x3) <<< 4) ||| (b2 >>> 4)) ::
    b64c (((b2 &&& 0xF) <<< 2) ||| (b3 >>> 6)) :: b64c (b3 &&& 0x3F) :: base64Encode rest

/-! ## Deal data model (`DealSchema`) -/

/-- A scraped deal (`DealSchema` in both tools). `originalPrice` is nullable. -/
structure Deal where
  title : String
  originalPrice : Option ℚ
  currentPrice : ℚ
  discountPercentage : ℚ
  url : String
  image : Option String
  site : String
  availability : String
deriving Repr, DecidableEq

/-- `DealFilteringService.generateDealHash`:
`Buffer.from(site + "-" + title.toLowerCase().trim() + "-" + currentPrice)
  .toString('base64').substring(0, 32)`. -/
def generateDealHash (deal : Deal) : String :=
  let key := deal.site ++ "-" ++ jsTrim (jsToLower deal.title) ++ "-"
      ++ ratToJsString deal.currentPrice
  ⟨(base64Encode (utf8Bytes key)).take 32⟩

/-! ## Site price parser (`SITE_CONFIGS[*].priceParser`)

The parser first cleans the text
(`text.replace(/[,$]/g, '').replace(/\s+/g, ' ').trim()`), then tries three
regexes in order.  Each regex is modelled as a leftmost-match backtracking
scanner with JavaScript's greedy semantics. -/

/-- `replace(/[,$]/g, '')`. -/
def stripCommaDollar (l : List Char) : List Char :=
  l.filter (fun c => ¬(c = ',' ∨ c = '$'))

/-- First half of `replace(/\s+/g, ' ')`: send every whitespace character
to a plain space (runs are collapsed by `squeezeSpaces`). -/
def mapWsToSpace (l : List Char) : List Char :=
  l.map (fun c => if jsIsSpace c then ' ' else c)

/-- Second half of `replace(/\s+/g, ' ')`: collapse runs of spaces. -/
def squeezeSpaces : List Char → List Char
  | [] => []
  | [c] => [c]
  | a :: b :: rest =>
    if a = ' ' ∧ b = ' ' then squeezeSpaces (b :: rest)
    else a :: squeezeSpaces (b :: rest)

/-- `text.replace(/[,$]/g, '').replace(/\s+/g, ' ').trim()`. -/
def cleanPriceText (s : String) : List Char :=
  jsTrimList (squeezeSpaces (mapWsToSpace (stripCommaDollar s.data)))

/-- Try `/(\d+)\s*(\d{2})(?!\d)/` anchored at the start of `s`, following the
backtracking order of a JS regex engine: `(\d+)` greedy longest-first, then
`\s*` greedy longest-first, then exactly two digits not followed by a digit.
Returns the two capture groups. -/
def tryDC (s : List Char) : Option (List Char × List Char) :=
  let run := s.takeWhile Char.isDigit
  (List.range run.length).findSome? fun k =>
    let len := run.length - k
    let d1 := s.take len
    let rest := s.drop len
    let wsMax := (rest.takeWhile jsIsSpace).length
    (List.range (wsMax + 1)).findSome? fun j =>
      match rest.drop (wsMax - j) with
      | a :: b :: t =>
        if a.isDigit && b.isDigit && (match t with | c :: _ => !c.isDigit | [] => true)
        then some (d1, [a, b]) else none
      | _ => none

/-- Leftmost match of `/(\d+)\s*(\d{2})(?!\d)/`: try every start position
left to right. -/
def matchDC : List Char → Option (List Char × List Char)
  | [] => none
  | c :: rest =>
    match tryDC (c :: rest) with
    | some r => some r
    | none => matchDC rest

/-- All ways the group `(\d+\.?\d{0,2})` can match at the start of `s`, in the
JS backtracking order (each of `\d+`, `\.?`, `\d{0,2}` greedy, tried
longest/with-dot first).  Returns (matched text, remainder). -/
def gMatches (s : List Char) : List (List Char × List Char) :=
  let run := s.takeWhile Char.isDigit
  (List.range run.length).flatMap fun k =>
    let len := run.length - k
    let d1 := s.take len
    let rest := s.drop len
    let withDot :=
      match rest with
      | '.' :: r2 =>
        let m := min 2 (r2.takeWhile Char.isDigit).length
        (List.range (m + 1)).map fun j =>
          let dl := m - j
          (d1 ++ '.' :: r2.take dl, r2.drop dl)
      | _ => []
    let withoutDot :=
      let m := min 2 (rest.takeWhile Char.isDigit).length
      (List.range (m + 1)).map fun j =>
        let dl := m - j
        (d1 ++ rest.take dl, rest.drop dl)
    withDot ++ withoutDot

/-- Try `/(\d+\.?\d{0,2})\s*-\s*(\d+\.?\d{0,2})/` anchored at the start of
`s`; returns the first capture group. -/
def tryRange (s : List Char) : Option (List Char) :=
  (gMatches s).findSome? fun g =>
    let wsMax := (g.2.takeWhile jsIsSpace).length
    (List.range (wsMax + 1)).findSome? fun j =>
      match g.2.drop (wsMax - j) with
      | '-' :: r2 =>
        let ws2 := (r2.takeWhile jsIsSpace).length
        (List.range (ws2 + 1)).findSome? fun j2 =>
          if (gMatches (r2.drop (ws2 - j2))).isEmpty then none else some g.1
      | _ => none

/-- Leftmost match of the price-range regex. -/
def matchRange : List Char → Option (List Char)
  | [] => none
  | c :: rest =>
    match tryRange (c :: rest) with
    | some r => some r
    | none => matchRange rest

/-- Try `/(\d+)(?:\.(\d{1,2}))?/` anchored at the start of `s`.  The
optional group never forces backtracking of `(\d+)`, so the digits group is
simply the maximal run. -/
def tryPrice (s : List Char) : Option (List Char × Option (List Char)) :=
  let run := s.takeWhile Char.isDigit
  if run.isEmpty then none
  else
    match s.drop run.length with
    | '.' :: r2 =>
      let ds := (r2.takeWhile Char.isDigit).take 2
      if ds.isEmpty then some (run, none) else some (run, some ds)
    | _ => some (run, none)

/-- Leftmost match of `/(\d+)(?:\.(\d{1,2}))?/`. -/
def matchPrice : List Char → Option (List Char × Option (List Char))
  | [] => none
  | c :: rest =>
    match tryPrice (c :: rest) with
    | some r => some r
    | none => matchPrice rest

/-- JS `parseFloat` on a string of shape `digits`, `digits.`, or
`digits.digits` (the only shapes the parser feeds it). -/
def parseFloatDigits (l : List Char) : ℚ :=
  let intPart := l.takeWhile Char.isDigit
  let rest := l.drop intPart.length
  let frac : ℚ :=
    match rest with
    | '.' :: fs => (digitsToNat fs : ℚ) / (10 ^ fs.length)
    | _ => 0
  (digitsToNat intPart : ℚ) + frac

/-- `padEnd(2, '0')` on a digit list of length ≤ 2. -/
def padTo2 (l : List Char) : List Char := l ++ List.replicate (2 - l.length) '0'

/-- The shared `priceParser` body of every entry of `SITE_CONFIGS`
("Enhanced price parsing to handle cents, ranges, and multiple price
formats").  The source's check `dollarsAndCents[2].length === 2` is always
true when the first regex matches (its group 2 is `\d{2}`), so the first
branch returns whenever `matchDC` succeeds. -/
def standardPriceParser (text : String) : Option ℚ :=
  let cleanText := cleanPriceText text
  match matchDC cleanText with
  | some (d1, d2) => some (parseFloatDigits (d1 ++ '.' :: d2))
  | none =>
    match matchRange cleanText with
    | some g1 => some (parseFloatDigits g1)
    | none =>
      match matchPrice cleanText with
      | some (g1, g2) =>
        let dollars : ℚ := digitsToNat g1
        let cents : ℚ :=
          match g2 with
          | some ds => digitsToNat (padTo2 ds)
          | none => 0
        some (dollars + cents / 100)
      | none => none

/-! ## Site profile registry (`SITE_CONFIGS`) -/

/-- The DOM selector set of a site profile. -/
structure SelectorSet where
  productContainer : String
  title : String
  originalPrice : Option String
  currentPrice : String
  image : String
  link : String
  availability : Option String
deriving Repr, DecidableEq

/-- A site profile (`SiteConfig` in the scraping tool).  `searchUrl` keeps its
shape as a function of the query; the `encodeURIComponent` of the query is
not modelled (no claim depends on it). -/
structure SiteConfig where
  name : String
  baseUrl : String
  searchUrl : String → String
  requiresJS : Bool
  selectors : SelectorSet
  priceParser : String → Option ℚ

/-- `SITE_CONFIGS[0]` (Amazon). -/
def amazonConfig : SiteConfig where
  name := "Amazon"
  baseUrl := "https://www.amazon.com"
  searchUrl := fun query => "https://www.amazon.com/s?k=" ++ query ++ "&ref=sr_pg_1"
  requiresJS := true
  selectors :=
    { productContainer := "[data-component-type=\"s-search-result\"]"
      title := "h2 a span, h2 span"
      originalPrice := some ".a-price-was, .a-text-price"
      currentPrice := ".a-price-current, .a-price"
      image := "img.s-image"
      link := "h2 a"
      availability := some ".a-size-base-plus" }
  priceParser := standardPriceParser

/-- `SITE_CONFIGS[1]` (eBay). -/
def ebayConfig : SiteConfig where
  name := "eBay"
  baseUrl := "https://www.ebay.com"
  searchUrl := fun query => "https://www.ebay.com/sch/i.html?_nkw=" ++ query
  requiresJS := false
  selectors :=
    { productContainer := ".s-item"
      title := ".s-item__title"
      originalPrice := some ".s-item__trending-price .STRIKETHROUGH"
      currentPrice := ".s-item__price"
      image := ".s-item__image img"
      link := ".s-item__link"
      availability := none }
  priceParser := standardPriceParser

/-- `SITE_CONFIGS[2]` (Walmart). -/
def walmartConfig : SiteConfig where
  name := "Walmart"
  baseUrl := "https://www.walmart.com"
  searchUrl := fun query => "https://www.walmart.com/search?q=" ++ query
  requiresJS := true
  selectors :=
    { productContainer := "[data-testid=\"item\"]"
      title := "[data-testid=\"product-title\"]"
      originalPrice := some "[data-testid=\"product-price-strikethrough\"]"
      currentPrice := "[data-testid=\"product-price\"]"
      image := "[data-testid=\"product-image\"] img"
      link := "a"
      availability := none }
  priceParser := standardPriceParser

/-- `SITE_CONFIGS[3]` (Best Buy). -/
def bestBuyConfig : SiteConfig where
  name := "Best Buy"
  baseUrl := "https://www.bestbuy.com"
  searchUrl := fun query => "https://www.bestbuy.com/site/searchpage.jsp?st=" ++ query
  requiresJS := true
  selectors :=
    { productContainer := ".sku-item"
      title := ".sku-header a"
      originalPrice := some ".sr-only, .visuallyhidden"
      currentPrice := ".pricing-current-price"
      image := ".product-image img"
      link := ".sku-header a"
      availability := none }
  priceParser := standardPriceParser

/-- `SITE_CONFIGS[4]` (Target). -/
def targetConfig : SiteConfig where
  name := "Target"
  baseUrl := "https://www.target.com"
  searchUrl := fun query => "https://www.target.com/s?searchTerm=" ++ query
  requiresJS := true
  selectors :=
    { productContainer := "[data-test=\"product-item\"]"
      title := "[data-test=\"product-title\"]"
      originalPrice := some "[data-test=\"product-price-reg\"]"
      currentPrice := "[data-test=\"product-price\"]"
      image := "[data-test=\"product-image\"] img"
      link := "a"
      availability := some "[data-test=\"fulfillment-availability\"]" }
  priceParser := standardPriceParser

/-- The compiled-in site profile registry. -/
def SITE_CONFIGS : List SiteConfig :=
  [amazonConfig, ebayConfig, walmartConfig, bestBuyConfig, targetConfig]

/-! ## Extraction & normalization (`scrapeWithCheerio` / `scrapeWithPuppeteer`) -/

/-- The raw per-listing text fields pulled out of the page before numeric
parsing (`RawExtraction`).  Empty selector text is the empty string;
`none` models a missing attribute (`null`). -/
structure RawListing where
  title : String
  currentPriceText : String
  originalPriceText : String
  imageUrl : Option String
  productUrl : Option String
  availability : String
deriving Repr, DecidableEq

/-- `siteConfig.baseUrl + (u.startsWith('/') ? '' : '/') + u` for relative
URLs; absolute (`http...`) URLs pass through.  In the image case, `data:`
URLs also pass through. -/
def resolveUrl (base : String) (u : String) (passData : Bool) : String :=
  if u.data.take 4 = "http".data then u
  else if passData && u.data.take 5 = "data:".data then u
  else base ++ (if u.data.take 1 = "/".data then "" else "/") ++ u

/-- The per-listing body of the extraction loop, shared by
`scrapeWithCheerio` and (split between `page.evaluate` and the processing
loop) `scrapeWithPuppeteer`:
require a non-empty trimmed title and non-empty price text, parse prices,
require a positive current price, compute the discount, drop listings with
a computed discount below 10, and assemble the `Deal`. -/
def processListing (cfg : SiteConfig) (pageUrl : String) (raw : RawListing) : Option Deal :=
  let title := jsTrim raw.title
  let currentPriceText := jsTrim raw.currentPriceText
  let originalPriceText := jsTrim raw.originalPriceText
  if title = "" ∨ currentPriceText = "" then none
  else
    match cfg.priceParser currentPriceText with
    | none => none
    | some currentPrice =>
      -- `if (!currentPrice || currentPrice <= 0) return` (0 is falsy)
      if currentPrice ≤ 0 then none
      else
        let originalPrice :=
          if originalPriceText = "" then none else cfg.priceParser originalPriceText
        -- `if (originalPrice && originalPrice > currentPrice)`; any
        -- originalPrice > currentPrice > 0 is nonzero, hence truthy
        let discountPercentage : ℚ :=
          match originalPrice with
          | some op => if op ≠ 0 ∧ currentPrice < op
              then (op - currentPrice) / op * 100 else 0
          | none => 0
        -- `if (discountPercentage < 10) return`
        if discountPercentage < 10 then none
        else
          let fullUrl :=
            match raw.productUrl with
            | some u => if u = "" then pageUrl else resolveUrl cfg.baseUrl u false
            | none => pageUrl
          let fullImageUrl :=
            match raw.imageUrl with
            | some u => some (resolveUrl cfg.baseUrl u true)
            | none => none
          some
            { title := title
              originalPrice := originalPrice
              currentPrice := currentPrice
              discountPercentage := jsRoundQ discountPercentage
              url := fullUrl
              image := fullImageUrl
              site := cfg.name
              availability := raw.availability }

/-! ## JSON values and `JSON.parse` (for `parseAIResponse`) -/

/-- A parsed JSON value (JS values reachable from `JSON.parse`). -/
inductive JSValue where
  | null : JSValue
  | bool (b : Bool) : JSValue
  | num (q : ℚ) : JSValue
  | str (s : String) : JSValue
  | arr (elems : List JSValue) : JSValue
  | obj (fields : List (String × JSValue)) : JSValue
deriving Repr

/-- JSON whitespace. -/
def jsonWs (c : Char) : Bool := c = ' ' || c = '\t' || c = '\n' || c = '\r'

/-- Drop leading JSON whitespace. -/
def skipWs (l : List Char) : List Char := l.dropWhile jsonWs

/-- Value of a hexadecimal digit, if any. -/
def hexVal (c : Char) : Option ℕ :=
  if '0' ≤ c ∧ c ≤ '9' then some (c.toNat - '0'.toNat)
  else if 'a' ≤ c ∧ c ≤ 'f' then some (c.toNat - 'a'.toNat + 10)
  else if 'A' ≤ c ∧ c ≤ 'F' then some (c.toNat - 'A'.toNat + 10)
  else none

/-- Parse the body of a JSON string literal (after the opening quote), with
escape sequences; `\uXXXX` yields the code unit directly (surrogate-pair
recombination is not modelled — no claim uses it). -/
def parseJsonStringChars : ℕ → List Char → Option (List Char × List Char)
  | 0, _ => none
  | _ + 1, [] => none
  | fuel + 1, c :: rest =>
    if c = '"' then some ([], rest)
    else if c = '\\' then
      match rest with
      | [] => none
      | e :: r2 =>
        if e = 'u' then
          match r2 with
          | h1 :: h2 :: h3 :: h4 :: r3 =>
            match hexVal h1, hexVal h2, hexVal h3, hexVal h4 with
            | some v1, some v2, some v3, some v4 =>
              (parseJsonStringChars fuel r3).map fun p =>
                (Char.ofNat (((v1 * 16 + v2) * 16 + v3) * 16 + v4) :: p.1, p.2)
            | _, _, _, _ => none
          | _ => none
        else
          let esc : Option Char :=
            if e = '"' then some '"'
            else if e = '\\' then some '\\'
            else if e = '/' then some '/'
            else if e = 'b' then some (Char.ofNat 8)
            else if e = 'f' then some (Char.ofNat 12)
            else if e = 'n' then some '\n'
            else if e = 'r' then some '\r'
            else if e = 't' then some '\t'
            else none
          match esc with
          | none => none
          | some ec => (parseJsonStringChars fuel r2).map fun p => (ec :: p.1, p.2)
    else if c.toNat < 32 then none
    else (parseJsonStringChars fuel rest).map fun p => (c :: p.1, p.2)

/-- Parse a JSON number (strict JSON grammar: optional minus, integer part
without leading zeros, optional fraction, optional exponent). -/
def parseJsonNumber (s : List Char) : Option (JSValue × List Char) :=
  let negAndRest : Bool × List Char :=
    match s with
    | '-' :: r => (true, r)
    | _ => (false, s)
  let neg := negAndRest.1
  let s1 := negAndRest.2
  let intDigits := s1.takeWhile Char.isDigit
  if intDigits.isEmpty then none
  else if 1 < intDigits.length ∧ intDigits.take 1 = ['0'] then none
  else
    let s2 := s1.drop intDigits.length
    let fracAndRest : List Char × List Char :=
      match s2 with
      | '.' :: r => (r.takeWhile Char.isDigit, (r.takeWhile Char.isDigit).length |> r.drop)
      | _ => ([], s2)
    let fracDigits := fracAndRest.1
    let s3 := fracAndRest.2
    let fracBad : Bool :=
      match s2 with
      | '.' :: _ => fracDigits.isEmpty
      | _ => false
    if fracBad then none
    else
      let expParse : Option (ℤ × List Char) :=
        match s3 with
        | e :: r =>
          if e = 'e' ∨ e = 'E' then
            let signAndRest : Bool × List Char :=
              match r with
              | '-' :: r2 => (true, r2)
              | '+' :: r2 => (false, r2)
              | _ => (false, r)
            let eDigits := signAndRest.2.takeWhile Char.isDigit
            if eDigits.isEmpty then none
            else
              let ev : ℤ := (digitsToNat eDigits : ℤ)
              some (if signAndRest.1 then -ev else ev, signAndRest.2.drop eDigits.length)
          else some (0, s3)
        | [] => some (0, s3)
      match expParse with
      | none => none
      | some (expo, s4) =>
        let mant : ℚ :=
          (digitsToNat intDigits : ℚ) + (digitsToNat fracDigits : ℚ) / 10 ^ fracDigits.length
        let value : ℚ := (if neg then -mant else mant) * (10 : ℚ) ^ expo
        some (JSValue.num value, s4)

mutual

/-- Parse one JSON value starting at `s` (leading whitespace allowed). -/
def parseJsonValue : ℕ → List Char → Option (JSValue × List Char)
  | 0, _ => none
  | fuel + 1, s =>
    match skipWs s with
    | 'n' :: 'u' :: 'l' :: 'l' :: r => some (JSValue.null, r)
    | 't' :: 'r' :: 'u' :: 'e' :: r => some (JSValue.bool true, r)
    | 'f' :: 'a' :: 'l' :: 's' :: 'e' :: r => some (JSValue.bool false, r)
    | '"' :: r => (parseJsonStringChars (r.length + 1) r).map fun p => (JSValue.str ⟨p.1⟩, p.2)
    | '[' :: r =>
      (match skipWs r with
       | ']' :: r2 => some (JSValue.arr [], r2)
       | _ => (parseJsonElems fuel r).map fun p => (JSValue.arr p.1, p.2))
    | c :: r =>
      if c = Char.ofNat 123 then  -- opening brace
        match skipWs r with
        | c2 :: r2 =>
          if c2 = Char.ofNat 125 then some (JSValue.obj [], r2)  -- closing brace
          else (parseJsonMembers fuel (c2 :: r2)).map fun p => (JSValue.obj p.1, p.2)
        | [] => none
      else parseJsonNumber (c :: r)
    | [] => none

/-- Parse a nonempty comma-separated list of array elements, consuming the
closing bracket. -/
def parseJsonElems : ℕ → List Char → Option (List JSValue × List Char)
  | 0, _ => none
  | fuel + 1, s =>
    match parseJsonValue fuel s with
    | none => none
    | some (v, r) =>
      match skipWs r with
      | ',' :: r2 => (parseJsonElems fuel r2).map fun p => (v :: p.1, p.2)
      | ']' :: r2 => some ([v], r2)
      | _ => none

/-- Parse a nonempty comma-separated list of object members, consuming the
closing brace. -/
def parseJsonMembers : ℕ → List Char → Option (List (String × JSValue) × List Char)
  | 0, _ => none
  | fuel + 1, s =>
    match skipWs s with
    | '"' :: r =>
      match parseJsonStringChars (r.length + 1) r with
      | none => none
      | some (key, r2) =>
        match skipWs r2 with
        | ':' :: r3 =>
          match parseJsonValue fuel r3 with
          | none => none
          | some (v, r4) =>
            match skipWs r4 with
            | ',' :: r5 => (parseJsonMembers fuel r5).map fun p => ((⟨key⟩, v) :: p.1, p.2)
            | c :: r5 =>
              if c = Char.ofNat 125 then some ([(⟨key⟩, v)], r5) else none
            | [] => none
        | _ => none
    | _ => none

end

/-- `JSON.parse`: parse one value and require only whitespace afterwards. -/
def jsonParse (s : String) : Option JSValue :=
  match parseJsonValue (2 * s.data.length + 2) s.data with
  | some (v, rest) => if (skipWs rest).isEmpty then some v else none
  | none => none

/-! ## `parseAIResponse` -/

/-- Property access `v.field` on a parsed JSON value: `none` is JS
`undefined`.  `JSON.parse` keeps the last of duplicate keys, hence the
lookup on the reversed field list. -/
def getField (v : JSValue) (name : String) : Option JSValue :=
  match v with
  | JSValue.obj fields => (fields.reverse.find? (fun f => f.1 = name)).map (·.2)
  | _ => none

/-- JS `Boolean(x)` (with `none` = `undefined`). -/
def jsTruthy : Option JSValue → Bool
  | none => false
  | some JSValue.null => false
  | some (JSValue.bool b) => b
  | some (JSValue.num q) => q ≠ 0
  | some (JSValue.str s) => s ≠ ""
  | some (JSValue.arr _) => true
  | some (JSValue.obj _) => true

/-- JS `Number(x)`, `none` result standing for `NaN`.  Strings go through
numeric parsing (JSON number grammar is the fragment needed here);
arrays/objects go through string coercion, abstracted as `NaN`/`0` only in
the unexercised cases. -/
def jsToNumber : Option JSValue → Option ℚ
  | none => none
  | some JSValue.null => some 0
  | some (JSValue.bool b) => some (if b then 1 else 0)
  | some (JSValue.num q) => some q
  | some (JSValue.str s) =>
    let t := jsTrimList s.data
    if t.isEmpty then some 0
    else
      match parseJsonNumber t with
      | some (JSValue.num q, rest) => if rest.isEmpty then some q else none
      | _ => none
  | some (JSValue.arr []) => some 0
  | some (JSValue.arr _) => none
  | some (JSValue.obj _) => none

/-- JS `Number(x) || default`: `NaN` and `0` are falsy, so both fall back to
the default. -/
def jsNumOr (x : Option JSValue) (dflt : ℚ) : ℚ :=
  match jsToNumber x with
  | none => dflt
  | some q => if q = 0 then dflt else q

/-- JS `String(x)` for the values that can appear here (array/object
stringification abstracted; not exercised by any claim). -/
def jsStringCoerce : JSValue → String
  | JSValue.null => "null"
  | JSValue.bool true => "true"
  | JSValue.bool false => "false"
  | JSValue.num q => ratToJsString q
  | JSValue.str s => s
  | JSValue.arr _ => ""
  | JSValue.obj _ => "[object Object]"

/-- Recommendation levels. -/
inductive Recommendation where
  | HIGH : Recommendation
  | MEDIUM : Recommendation
  | LOW : Recommendation
deriving Repr, DecidableEq

/-- The AI verdict (`PricingAnalysisResult`).  `suspiciousFactors` keeps the
raw JSON array elements (the source does not coerce them to strings). -/
structure PricingAnalysisResult where
  isLegitimate : Bool
  confidenceScore : ℚ
  pricingGlitchProbability : ℚ
  analysis : String
  suspiciousFactors : List JSValue
  recommendationLevel : Recommendation
deriving Repr

/-- `text.match(/\{[\s\S]*\}/)`: from the first opening brace through the
last closing brace of the text (the `[\s\S]*` is greedy).  If the first
opening brace has no closing brace after it, no later start can match
either, so there is no match. -/
def greedyBraceMatch : List Char → Option (List Char)
  | [] => none
  | c :: rest =>
    if c = Char.ofNat 123 then
      let tail := ((rest.reverse.dropWhile (fun x => ¬x = Char.ofNat 125))).reverse
      if tail.isEmpty then none else some (c :: tail)
    else greedyBraceMatch rest

/-- The string handed to `JSON.parse`: the regex match if any, else the
whole text (`jsonMatch ? jsonMatch[0] : text`). -/
def aiJsonTarget (text : String) : String :=
  match greedyBraceMatch text.data with
  | some m => ⟨m⟩
  | none => text

/-- `DealFilteringService.parseAIResponse` (minus logging): extract the
brace-delimited substring, `JSON.parse` it, and sanitize the fields.
`none` models the thrown `Failed to parse ... analysis response` error;
property access on a parsed `null` throws inside the same `try`, so it is
also `none`. -/
def parseAIResponse (text : String) : Option PricingAnalysisResult :=
  match jsonParse (aiJsonTarget text) with
  | none => none
  | some JSValue.null => none
  | some v =>
    some
      { isLegitimate := jsTruthy (getField v "isLegitimate")
        confidenceScore := max 0 (min 100 (jsNumOr (getField v "confidenceScore") 50))
        pricingGlitchProbability :=
          max 0 (min 100 (jsNumOr (getField v "pricingGlitchProbability") 0))
        analysis :=
          match getField v "analysis" with
          | some av => if jsTruthy (some av) then jsStringCoerce av else "No analysis provided"
          | none => "No analysis provided"
        suspiciousFactors :=
          match getField v "suspiciousFactors" with
          | some (JSValue.arr elems) => elems
          | _ => []
        recommendationLevel :=
          match getField v "recommendation" with
          | some (JSValue.str s) =>
            if s = "HIGH" then Recommendation.HIGH
            else if s = "MEDIUM" then Recommendation.MEDIUM
            else if s = "LOW" then Recommendation.LOW
            else Recommendation.MEDIUM
          | _ => Recommendation.MEDIUM }

/-! ## Discount-math validation (`validateDiscountMath`) -/

/-- Flag text for a missing/non-positive original price. -/
def noOriginalFlag : String := "No valid original price provided"

/-- Flag text for a non-positive current price. -/
def invalidCurrentFlag : String := "Invalid current price"

/-- Flag text for `currentPrice >= originalPrice`. -/
def notLowerFlag : String := "Current price is not lower than original price"

/-- Flag text for a calculated/reported discount mismatch.  The source
interpolates the two numbers (`toFixed(1)`) into the message; the numeric
formatting is abstracted away since no claim depends on the digits. -/
def mismatchFlag : String := "Discount mismatch: calculated % vs reported %"

/-- Flag text for `actualDiscount > 95`. -/
def extremeFlag : String := "Extremely high discount (>95%) - likely pricing glitch"

/-- Flag text for `actualDiscount < 50 && reported >= 90`. -/
def suspiciousReportFlag : String := "Reported discount much higher than calculated - suspicious"

/-- Result record of `validateDiscountMath`. -/
structure MathValidation where
  valid : Bool
  actualDiscount : ℚ
  flags : List String
deriving Repr, DecidableEq

/-- `DealFilteringService.validateDiscountMath` (minus logging).  The JS
guard `!deal.originalPrice || deal.originalPrice <= 0` is `none` or a
non-positive value (`!0` is truthy). -/
def validateDiscountMath (deal : Deal) : MathValidation :=
  match deal.originalPrice with
  | none => { valid := false, actualDiscount := 0, flags := [noOriginalFlag] }
  | some op =>
    if op ≤ 0 then { valid := false, actualDiscount := 0, flags := [noOriginalFlag] }
    else if deal.currentPrice ≤ 0 then
      { valid := false, actualDiscount := 0, flags := [invalidCurrentFlag] }
    else if op ≤ deal.currentPrice then
      { valid := false, actualDiscount := 0, flags := [notLowerFlag] }
    else
      let actualDiscount := (op - deal.currentPrice) / op * 100
      let discountDifference := |actualDiscount - deal.discountPercentage|
      let flags₁ := if 5 < discountDifference then [mismatchFlag] else []
      let flags₂ := flags₁ ++ (if 95 < actualDiscount then [extremeFlag] else [])
      if actualDiscount < 50 ∧ 90 ≤ deal.discountPercentage then
        { valid := false, actualDiscount := actualDiscount
          flags := flags₂ ++ [suspiciousReportFlag] }
      else
        { valid := decide (50 ≤ actualDiscount), actualDiscount := actualDiscount
          flags := flags₂ }

/-! ## Heuristic suspicion detection (`detectSuspiciousPricing`) -/

/-- The "round number" price patterns. -/
def roundNumbers : List ℚ := [0.1, 0.5, 1.0, 5.0, 10.0, 20.0, 50.0]

/-- The premium brand tokens. -/
def qualityBrands : List String :=
  ["apple", "samsung", "sony", "nike", "adidas", "louis vuitton", "gucci", "prada"]

/-- `DealFilteringService.detectSuspiciousPricing` (minus logging), flags in
source order.  JS truthiness of `deal.originalPrice` in the round-number
check is subsumed by `> 100`. -/
def detectSuspiciousPricing (deal : Deal) : List String :=
  let title := jsToLower deal.title
  (if deal.currentPrice < 1 then ["Price under $1 - likely pricing error"] else []) ++
  (if deal.currentPrice = 0.01 then ["Penny pricing - classic pricing glitch"] else []) ++
  (if roundNumbers.contains deal.currentPrice &&
      (match deal.originalPrice with | some op => decide (100 < op) | none => false)
   then ["Suspiciously round pricing for expensive item"] else []) ++
  (if qualityBrands.any (fun brand => strHasSub title.data brand.data) ∧ deal.currentPrice < 20
   then ["High-end brand at very low price - potential glitch"] else []) ++
  (if title.data.length < 10 then ["Very short product title - possibly incomplete"] else []) ++
  (if hasDigitRun10 title.data
   then ["Title contains long number sequences - possibly corrupted"] else []) ++
  (if strHasSub (jsToLower deal.availability).data "limited".data ∧
      90 < deal.discountPercentage
   then ["Limited availability with extreme discount - possible error"] else [])

/-! ## Scoring (`calculateOverallScore`) -/

/-- `DealFilteringService.calculateOverallScore` (minus logging): base 50,
discount quality, AI confidence, suspicion penalty, glitch bonus, then
`Math.max(0, Math.min(100, Math.round(score)))`. -/
def calculateOverallScore (mv : MathValidation) (ai : PricingAnalysisResult)
    (suspiciousFactors : List String) : ℚ :=
  let score : ℚ := 50
  let score := if mv.valid then score + min 30 (mv.actualDiscount * 0.3) else score - 20
  let score := score + ai.confidenceScore / 100 * 40
  let score := score - min 30 ((suspiciousFactors.length : ℚ) * 5)
  let score := if 70 < ai.pricingGlitchProbability then score + 20 else score
  max 0 (min 100 (jsRoundQ score))

/-- Modelled from the spec: the score formula exactly as the claim states
it — "clamp to [0,100] of: 50, plus `min(30, actualDiscount*0.3)` if
math-valid else minus 20, plus `aiConfidence/100*40`, minus
`min(30, suspiciousFactorCount*5)`, plus a flat 20 when
`pricingGlitchProbability > 70`" — i.e. without the source's `Math.round`
(kept separate so the claim can be compared with the code). -/
def claimedOverallScore (mv : MathValidation) (ai : PricingAnalysisResult)
    (suspiciousFactors : List String) : ℚ :=
  let score : ℚ := 50
  let score := if mv.valid then score + min 30 (mv.actualDiscount * 0.3) else score - 20
  let score := score + ai.confidenceScore / 100 * 40
  let score := score - min 30 ((suspiciousFactors.length : ℚ) * 5)
  let score := if 70 < ai.pricingGlitchProbability then score + 20 else score
  max 0 (min 100 score)

/-! ## The filtering loop (`filterDeals`) -/

/-- A deal together with its filtering metadata (`FilteredDealSchema`).
`suspiciousFactors` mixes the heuristic strings with the AI's raw JSON
array entries, like the spread `[...suspiciousFactors,
...aiAnalysis.suspiciousFactors]` does. -/
structure FilteredDeal extends Deal where
  confidenceScore : ℚ
  pricingGlitchProbability : ℚ
  filteringReason : String
  validationFlags : List String
  aiAnalysis : String
  suspiciousFactors : List JSValue
  recommendationLevel : Recommendation
deriving Repr

/-- The AI oracle abstracting `analyzeWithAI` (Perplexity, then OpenAI
fallback, then `parseAIResponse`); `none` = both providers failed, the
surrounding `catch` then skips the deal. -/
def AIOracle : Type := Deal → Option PricingAnalysisResult

/-- Loop state of `filterDeals`: the `seenDeals` hash set (which outlives a
single call on the same service instance) and the accepted deals so far. -/
structure FilterState where
  seen : List String
  out : List FilteredDeal

/-- One iteration of the `for (const deal of deals)` loop of
`DealFilteringService.filterDeals`: dedup check, math validation gate, AI
analysis (failure caught and skipped), suspicion detection, scoring, and
the acceptance decision. -/
def processOneDeal (ai : AIOracle) (minDiscountPercentage minConfidenceScore : ℚ)
    (st : FilterState) (deal : Deal) : FilterState :=
  let dealHash := generateDealHash deal
  if st.seen.contains dealHash then st
  else
    let seen := dealHash :: st.seen
    let mv := validateDiscountMath deal
    if mv.valid = false ∧ mv.actualDiscount < 50 then { seen := seen, out := st.out }
    else
      match ai deal with
      | none => { seen := seen, out := st.out }
      | some aiR =>
        let suspiciousFactors := detectSuspiciousPricing deal
        let confidenceScore := calculateOverallScore mv aiR suspiciousFactors
        let qualifiesAsHighDiscount := minDiscountPercentage ≤ mv.actualDiscount
        let qualifiesAsPricingGlitch := (70 : ℚ) ≤ aiR.pricingGlitchProbability
        let meetsConfidenceThreshold := minConfidenceScore ≤ confidenceScore
        if (qualifiesAsHighDiscount ∨ qualifiesAsPricingGlitch) ∧ meetsConfidenceThreshold then
          let filteringReason :=
            if qualifiesAsPricingGlitch then
              "Potential pricing glitch (" ++ ratToJsString aiR.pricingGlitchProbability
                ++ "% probability)"
            else
              "High discount deal (" ++ ratToJsString mv.actualDiscount ++ "% off)"
          let filteredDeal : FilteredDeal :=
            { deal with
              confidenceScore := confidenceScore
              pricingGlitchProbability := aiR.pricingGlitchProbability
              filteringReason := filteringReason
              validationFlags := mv.flags
              aiAnalysis := aiR.analysis
              suspiciousFactors :=
                suspiciousFactors.map JSValue.str ++ aiR.suspiciousFactors
              recommendationLevel := aiR.recommendationLevel }
          { seen := seen, out := st.out ++ [filteredDeal] }
        else { seen := seen, out := st.out }

/-- The ranking key of the final sort:
`confidenceScore + pricingGlitchProbability * 0.5`. -/
def dealSortKey (fd : FilteredDeal) : ℚ :=
  fd.confidenceScore + fd.pricingGlitchProbability * 0.5

/-- The comparator `(a, b) => scoreB - scoreA` as a `Bool` relation: `a` may
be placed before `b` iff `key b ≤ key a` (descending).  JS `Array.sort` is
stable, matched by `List.mergeSort`. -/
def dealSortLe (a b : FilteredDeal) : Bool := decide (dealSortKey b ≤ dealSortKey a)

/-- The list of deals accepted by the loop (before sorting/truncation),
starting from dedup state `seen₀`. -/
def selectedDeals (ai : AIOracle) (deals : List Deal)
    (minDiscountPercentage minConfidenceScore : ℚ) (seen₀ : List String) : FilterState :=
  deals.foldl (processOneDeal ai minDiscountPercentage minConfidenceScore)
    { seen := seen₀, out := [] }

/-- `DealFilteringService.filterDeals`, parametrized by the dedup state the
service instance has accumulated (`seenDeals` persists across calls): run
the loop, sort descending by `confidenceScore + 0.5 * glitchProbability`,
truncate to `maxResults` (`slice(0, maxResults)`). -/
def filterDealsFrom (ai : AIOracle) (deals : List Deal)
    (minDiscountPercentage minConfidenceScore : ℚ) (maxResults : ℕ)
    (seen₀ : List String) : List FilteredDeal :=
  ((selectedDeals ai deals minDiscountPercentage minConfidenceScore seen₀).out.mergeSort
    dealSortLe).take maxResults

/-- `filterDeals` on a fresh service instance (empty dedup set). -/
def filterDeals (ai : AIOracle) (deals : List Deal)
    (minDiscountPercentage minConfidenceScore : ℚ) (maxResults : ℕ) : List FilteredDeal :=
  filterDealsFrom ai deals minDiscountPercentage minConfidenceScore maxResults []

/-! ## Helper lemmas about `validateDiscountMath` -/

/-- On a deal with usable prices (`originalPrice` positive, `currentPrice`
positive and lower), `validateDiscountMath` reaches the discount
computation; the three early returns are skipped. -/
theorem validateDiscountMath_good (d : Deal) (o : ℚ) (ho : d.originalPrice = some o)
    (_h1 : 0 < o) (h2 : 0 < d.currentPrice) (h3 : d.currentPrice < o) :
    validateDiscountMath d =
      (let actualDiscount := (o - d.currentPrice) / o * 100
       let flags := (if 5 < |actualDiscount - d.discountPercentage| then [mismatchFlag] else [])
           ++ (if 95 < actualDiscount then [extremeFlag] else [])
       if actualDiscount < 50 ∧ 90 ≤ d.discountPercentage then
         ⟨false, actualDiscount, flags ++ [suspiciousReportFlag]⟩
       else
         ⟨decide (50 ≤ actualDiscount), actualDiscount, flags⟩) := by
  simp only [validateDiscountMath, ho]
  rw [if_neg (by linarith), if_neg (by linarith), if_neg (by linarith)]

/-- A math-invalid result always carries `actualDiscount < 50` (the early
returns report `0` and the two other `valid := false` outcomes require it),
so the loop's skip condition `!valid && actualDiscount < 50` is equivalent
to `!valid`. -/
theorem validateDiscountMath_invalid_lt50 (d : Deal)
    (h : (validateDiscountMath d).valid = false) :
    (validateDiscountMath d).actualDiscount < 50 := by
  unfold validateDiscountMath at *
  cases hop : d.originalPrice with
  | none => simp [hop]
  | some o =>
    simp only [hop] at h ⊢
    by_cases h1 : o ≤ 0
    · simp [h1]
    · by_cases h2 : d.currentPrice ≤ 0
      · simp [h1, h2]
      · by_cases h3 : o ≤ d.currentPrice
        · simp [h1, h2, h3]
        · simp only [h1, h2, h3, if_false] at h ⊢
          by_cases h4 : (o - d.currentPrice) / o * 100 < 50 ∧ 90 ≤ d.discountPercentage
          · simp only [h4, if_true]
            exact h4.1
          · simp only [h4, if_false] at h ⊢
            simpa using h

/-! ## Concrete fixtures used by witnesses and counterexamples -/

/-- A deal with consistent 60% discount. -/
def laptopDeal : Deal where
  title := "Great Laptop Deal"
  originalPrice := some 100
  currentPrice := 40
  discountPercentage := 60
  url := "u"
  image := none
  site := "Amazon"
  availability := "In Stock"

/-- Usable prices but only a 40% real discount (reported honestly). -/
def belowBarDeal : Deal :=
  { laptopDeal with currentPrice := 60, discountPercentage := 40 }

/-- 40% real discount but a reported 95% claim. -/
def overReportedDeal : Deal :=
  { laptopDeal with currentPrice := 60, discountPercentage := 95 }

/-- 98% real discount, consistently reported. -/
def extremeDeal : Deal :=
  { laptopDeal with currentPrice := 2, discountPercentage := 98 }

/-- 49% real discount — just below the validity bar. -/
def deal49 : Deal :=
  { laptopDeal with currentPrice := 51, discountPercentage := 49 }

/-- 95%-off deal used in the ranking counterexample. -/
def gadgetDeal : Deal :=
  { laptopDeal with
      title := "Mega Discount Gadget Pro"
      currentPrice := 5
      discountPercentage := 95 }

/-- A second, distinct 96%-off deal. -/
def bargainDeal : Deal :=
  { laptopDeal with
      title := "Another Bargain Machine"
      currentPrice := 4
      discountPercentage := 96 }

/-- The first 24 bytes of its dedup key (`Amazon-superwidget delux`…)
coincide with `blueDeal`'s. -/
def redDeal : Deal :=
  { laptopDeal with
      title := "SuperWidget Deluxe Edition Red"
      currentPrice := 5
      discountPercentage := 95 }

/-- Distinct title, same truncated hash as `redDeal`. -/
def blueDeal : Deal :=
  { laptopDeal with
      title := "SuperWidget Deluxe Edition Blue"
      currentPrice := 5
      discountPercentage := 95 }

/-- A fixed favourable AI verdict. -/
def testVerdict : PricingAnalysisResult where
  isLegitimate := true
  confidenceScore := 90
  pricingGlitchProbability := 80
  analysis := "a"
  suspiciousFactors := []
  recommendationLevel := Recommendation.HIGH

/-- An oracle that always returns `testVerdict`. -/
def testAI : AIOracle := fun _ => some testVerdict

/-- A verdict with confidence 1 and no glitch signal. -/
def lowConfVerdict : PricingAnalysisResult :=
  { testVerdict with confidenceScore := 1, pricingGlitchProbability := 0 }

/-- A math-validation record for an invalid deal with no flags. -/
def invalidZeroMV : MathValidation := ⟨false, 0, []⟩

/-! ## Flag-membership helpers -/

/-- Membership of the mismatch flag in the flag list built by
`validateDiscountMath`'s main branch. -/
theorem mismatch_mem_iff (c1 c2 : Prop) [Decidable c1] [Decidable c2] (tail : List String)
    (htail : mismatchFlag ∉ tail) :
    mismatchFlag ∈
        ((if c1 then [mismatchFlag] else []) ++ (if c2 then [extremeFlag] else [])) ++ tail
      ↔ c1 := by
  by_cases h1 : c1 <;> by_cases h2 : c2 <;>
    simp [h1, h2, htail, (by decide : ¬(mismatchFlag = extremeFlag))]

/-- Membership of the suspicious-report flag in the two optional flags. -/
theorem suspicious_not_mem (c1 c2 : Prop) [Decidable c1] [Decidable c2] :
    suspiciousReportFlag ∉
      (if c1 then [mismatchFlag] else []) ++ (if c2 then [extremeFlag] else []) := by
  by_cases h1 : c1 <;> by_cases h2 : c2 <;>
    simp [h1, h2, (by decide : ¬(suspiciousReportFlag = mismatchFlag)),
      (by decide : ¬(suspiciousReportFlag = extremeFlag))]

/-- Membership of the extreme-discount flag. -/
theorem extreme_mem_iff (c1 c2 : Prop) [Decidable c1] [Decidable c2] (tail : List String)
    (htail : extremeFlag ∉ tail) :
    extremeFlag ∈
        ((if c1 then [mismatchFlag] else []) ++ (if c2 then [extremeFlag] else [])) ++ tail
      ↔ c2 := by
  by_cases h1 : c1 <;> by_cases h2 : c2 <;>
    simp [h1, h2, htail, (by decide : ¬(extremeFlag = mismatchFlag))]

/-! ## C3 — `validateDiscountMath` -/

/-- C3, counterexample: `belowBarDeal` has a positive original price and a
positive current price strictly below it — none of the claim's rejection
conditions — yet `validateDiscountMath` marks it invalid (its real
discount is 40% < 50%).  So "invalid exactly when the prices are bad" is
false on the code. -/
theorem c3_counterexample :
    belowBarDeal.originalPrice = some 100 ∧ (0 : ℚ) < 100
    ∧ 0 < belowBarDeal.currentPrice ∧ belowBarDeal.currentPrice < 100
    ∧ (validateDiscountMath belowBarDeal).valid = false := by decide

/-- C3 (amended): `validateDiscountMath` marks a deal invalid exactly when
`originalPrice` is missing or non-positive, `currentPrice` is non-positive,
`currentPrice ≥ originalPrice` (each with a flag), **or** the computed
`actualDiscount = 100*(original-current)/original` is below 50; with usable
prices it computes exactly that discount (e.g. original=100, current=40
gives 60) and carries the mismatch flag exactly when
`|actualDiscount - reportedDiscount| > 5`. -/
theorem c3_validateDiscountMath_spec (d : Deal) :
    (d.originalPrice = none →
      (validateDiscountMath d).valid = false
      ∧ (validateDiscountMath d).flags = [noOriginalFlag])
    ∧ (∀ o, d.originalPrice = some o → o ≤ 0 →
      (validateDiscountMath d).valid = false
      ∧ (validateDiscountMath d).flags = [noOriginalFlag])
    ∧ (∀ o, d.originalPrice = some o → 0 < o → d.currentPrice ≤ 0 →
      (validateDiscountMath d).valid = false
      ∧ (validateDiscountMath d).flags = [invalidCurrentFlag])
    ∧ (∀ o, d.originalPrice = some o → 0 < o → 0 < d.currentPrice → o ≤ d.currentPrice →
      (validateDiscountMath d).valid = false
      ∧ (validateDiscountMath d).flags = [notLowerFlag])
    ∧ (∀ o, d.originalPrice = some o → 0 < o → 0 < d.currentPrice → d.currentPrice < o →
      (validateDiscountMath d).actualDiscount = (o - d.currentPrice) / o * 100
      ∧ ((validateDiscountMath d).valid = true ↔ 50 ≤ (o - d.currentPrice) / o * 100)
      ∧ (mismatchFlag ∈ (validateDiscountMath d).flags ↔
          5 < |(o - d.currentPrice) / o * 100 - d.discountPercentage|)) := by
  refine ⟨?_, ?_, ?_, ?_, ?_⟩
  · intro h; simp [validateDiscountMath, h]
  · intro o h ho; simp [validateDiscountMath, h, ho]
  · intro o h ho hc; simp [validateDiscountMath, h, not_le.mpr ho, hc]
  · intro o h ho hc hoc
    simp [validateDiscountMath, h, not_le.mpr ho, not_le.mpr hc, hoc]
  · intro o h ho hc hco
    rw [validateDiscountMath_good d o h ho hc hco]
    by_cases hsusp : (o - d.currentPrice) / o * 100 < 50 ∧ 90 ≤ d.discountPercentage
    · rw [if_pos hsusp]
      refine ⟨rfl, ?_, ?_⟩
      · simp only [Bool.false_eq_true, false_iff, not_le]
        exact hsusp.1
      · exact mismatch_mem_iff _ _ [suspiciousReportFlag] (by decide)
    · rw [if_neg hsusp]
      refine ⟨rfl, by simp [decide_eq_true_iff], ?_⟩
      have := mismatch_mem_iff
        (5 < |(o - d.currentPrice) / o * 100 - d.discountPercentage|)
        (95 < (o - d.currentPrice) / o * 100) [] (by simp)
      simpa using this

/-- C3, witness at `laptopDeal` (original=100, current=40, reported=60):
the computed discount is 60, validity holds since 60 ≥ 50, and no mismatch
flag since the report matches. -/
theorem c3_witness :
    (validateDiscountMath laptopDeal).actualDiscount = (100 - 40) / 100 * 100
    ∧ ((validateDiscountMath laptopDeal).valid = true ↔
        (50 : ℚ) ≤ (100 - 40) / 100 * 100)
    ∧ (mismatchFlag ∈ (validateDiscountMath laptopDeal).flags ↔
        5 < |(100 - 40) / (100 : ℚ) * 100 - laptopDeal.discountPercentage|) :=
  (c3_validateDiscountMath_spec laptopDeal).2.2.2.2 100 rfl (by decide) (by decide) (by decide)

/-! ## C8 — the outright-rejection guard -/

/-- C8, counterexample: `overReportedDeal` (real discount 40%, reported
95%) is rejected outright by the guard — its flag list carries the
suspicious-report flag and `valid` is false — although its
`actualDiscount` is not above 95.  The claim's trigger
"`actualDiscount > 95` AND (reported ≥ 90 while actual < 50)" is
unsatisfiable and does not describe the code. -/
theorem c8_counterexample :
    (validateDiscountMath overReportedDeal).valid = false
    ∧ suspiciousReportFlag ∈ (validateDiscountMath overReportedDeal).flags
    ∧ ¬(95 < (validateDiscountMath overReportedDeal).actualDiscount) := by decide

/-- C8 (amended): on usable prices, the outright rejection (the
suspicious-report flag plus `valid = false`) fires exactly when
`actualDiscount < 50` and `reportedDiscount ≥ 90` — the `> 95` condition
plays no part in it; a deal with `actualDiscount > 95` gets the
extreme-discount flag but is left `valid` by this guard (its discount is
≥ 50). -/
theorem c8_reject_guard_spec (d : Deal) (o : ℚ) (h : d.originalPrice = some o)
    (ho : 0 < o) (hc : 0 < d.currentPrice) (hco : d.currentPrice < o) :
    (suspiciousReportFlag ∈ (validateDiscountMath d).flags ↔
      (o - d.currentPrice) / o * 100 < 50 ∧ 90 ≤ d.discountPercentage)
    ∧ (suspiciousReportFlag ∈ (validateDiscountMath d).flags →
        (validateDiscountMath d).valid = false)
    ∧ (95 < (o - d.currentPrice) / o * 100 →
        extremeFlag ∈ (validateDiscountMath d).flags
        ∧ (validateDiscountMath d).valid = true) := by
  rw [validateDiscountMath_good d o h ho hc hco]
  by_cases hsusp : (o - d.currentPrice) / o * 100 < 50 ∧ 90 ≤ d.discountPercentage
  · rw [if_pos hsusp]
    refine ⟨?_, fun _ => rfl, ?_⟩
    · simp only [iff_true_intro hsusp, iff_true]
      exact List.mem_append.mpr (Or.inr (by simp))
    · intro hex
      exact absurd (by linarith [hsusp.1] : (95 : ℚ) < 50) (by norm_num)
  · rw [if_neg hsusp]
    refine ⟨?_, ?_, ?_⟩
    · simp only [iff_false_intro hsusp, iff_false]
      exact suspicious_not_mem _ _
    · intro hmem
      exact absurd hmem (suspicious_not_mem _ _)
    · intro hex
      refine ⟨?_, ?_⟩
      · have := extreme_mem_iff
          (5 < |(o - d.currentPrice) / o * 100 - d.discountPercentage|)
          (95 < (o - d.currentPrice) / o * 100) [] (by simp)
        simp only [List.append_nil] at this
        exact this.mpr hex
      · simp only [decide_eq_true_iff]
        linarith

/-- C8, witness: the guard fires on `overReportedDeal` (actual 40%,
reported 95%), and `extremeDeal` (actual 98%) is flagged yet valid. -/
theorem c8_witness :
    (suspiciousReportFlag ∈ (validateDiscountMath overReportedDeal).flags ↔
      (100 - overReportedDeal.currentPrice) / 100 * 100 < 50
        ∧ 90 ≤ overReportedDeal.discountPercentage)
    ∧ (extremeFlag ∈ (validateDiscountMath extremeDeal).flags
        ∧ (validateDiscountMath extremeDeal).valid = true) :=
  ⟨(c8_reject_guard_spec overReportedDeal 100 rfl (by decide) (by decide) (by decide)).1,
   (c8_reject_guard_spec extremeDeal 100 rfl (by decide) (by decide) (by decide)).2.2
    (by decide)⟩

/-! ## C4 — `calculateOverallScore` -/

/-- C4, counterexample: with an invalid math result and AI confidence 1,
the code returns `round(50 - 20 + 0.4) = 30`, while the claim's formula
(clamp of the raw sum, no rounding) gives `30.4`.  The claimed equality
fails because the source rounds (`Math.round`) before clamping. -/
theorem c4_counterexample :
    calculateOverallScore invalidZeroMV lowConfVerdict [] = 30
    ∧ claimedOverallScore invalidZeroMV lowConfVerdict [] = 152 / 5
    ∧ (30 : ℚ) ≠ 152 / 5 := by decide

/-- C4 (amended): `calculateOverallScore` equals the clamp to [0,100] of the
**rounded** sum `50 ± discount-or-penalty + aiConfidence/100*40 -
min(30, 5*#factors) + glitch bonus`; in particular the result always lies
in [0, 100], whatever the inputs. -/
theorem c4_calculateOverallScore_spec (mv : MathValidation) (ai : PricingAnalysisResult)
    (sf : List String) :
    calculateOverallScore mv ai sf
      = max 0 (min 100 (jsRoundQ
          (50 + (if mv.valid then min 30 (mv.actualDiscount * 0.3) else -20)
            + ai.confidenceScore / 100 * 40
            - min 30 ((sf.length : ℚ) * 5)
            + (if 70 < ai.pricingGlitchProbability then 20 else 0))))
    ∧ 0 ≤ calculateOverallScore mv ai sf
    ∧ calculateOverallScore mv ai sf ≤ 100 := by
  refine ⟨?_, ?_, ?_⟩
  · unfold calculateOverallScore
    by_cases hv : mv.valid <;> by_cases hg : 70 < ai.pricingGlitchProbability <;>
      simp only [hv, hg, if_true, if_false, Bool.false_eq_true] <;> ring_nf
  · unfold calculateOverallScore
    exact le_max_left _ _
  · unfold calculateOverallScore
    exact max_le (by norm_num) (min_le_left _ _)

/-! ## C5 — price parser test vectors -/

/-- C5: the parser meets the "99 99" (split tokens), "$10 - $20" (range →
lower bound), "50" (missing cents) and unparseable-text vectors, but on
"$1,299.99" it returns 12.99 instead of the required 1299.99: after the
commas are stripped, the dollars-and-cents regex `/(\d+)\s*(\d{2})(?!\d)/`
backtracks inside "1299.99" and captures "12"/"99" (`parseFloat("12.99")`).
The thousands-separator requirement is broken by the code. -/
theorem c5_price_vectors :
    amazonConfig.priceParser "$1,299.99" = some (1299 / 100)
    ∧ amazonConfig.priceParser "$1,299.99" ≠ some (1299.99 : ℚ)
    ∧ amazonConfig.priceParser "99 99" = some (99.99 : ℚ)
    ∧ amazonConfig.priceParser "$10 - $20" = some 10
    ∧ amazonConfig.priceParser "50" = some 50
    ∧ amazonConfig.priceParser "No price available" = none := by decide

/-! ## C6 — extraction and the 10% floor -/

/-- C6: per-listing extraction: listings with an empty (trimmed) title or a
missing/non-positive parsed current price are skipped; whenever a parsed
original price above the current price exists the produced deal's
`discountPercentage` is `round(100*(original-current)/original)` and a
computed discount below 10 is dropped (the stage takes no caller
threshold — any caller minimum is applied later, after this floor); in
every other configuration the computed discount is 0, below the floor, so
the listing is dropped (the "else 0" branch never yields a deal). -/
theorem c6_extraction_spec (cfg : SiteConfig) (pageUrl : String) (raw : RawListing) :
    (jsTrim raw.title = "" → processListing cfg pageUrl raw = none)
    ∧ (cfg.priceParser (jsTrim raw.currentPriceText) = none →
        processListing cfg pageUrl raw = none)
    ∧ (∀ p, cfg.priceParser (jsTrim raw.currentPriceText) = some p → p ≤ 0 →
        processListing cfg pageUrl raw = none)
    ∧ (∀ p o, cfg.priceParser (jsTrim raw.currentPriceText) = some p → 0 < p →
        jsTrim raw.originalPriceText ≠ "" →
        cfg.priceParser (jsTrim raw.originalPriceText) = some o → p < o →
        ((o - p) / o * 100 < 10 → processListing cfg pageUrl raw = none)
        ∧ ∀ d, processListing cfg pageUrl raw = some d →
            d.discountPercentage = jsRoundQ ((o - p) / o * 100))
    ∧ (∀ p, cfg.priceParser (jsTrim raw.currentPriceText) = some p → 0 < p →
        (jsTrim raw.originalPriceText = ""
          ∨ cfg.priceParser (jsTrim raw.originalPriceText) = none
          ∨ (∃ o, cfg.priceParser (jsTrim raw.originalPriceText) = some o ∧ o ≤ p)) →
        processListing cfg pageUrl raw = none) := by
  by_cases hempty : jsTrim raw.title = "" ∨ jsTrim raw.currentPriceText = ""
  · have hnone : processListing cfg pageUrl raw = none := by
      unfold processListing
      rw [if_pos hempty]
    refine ⟨fun _ => hnone, fun _ => hnone, fun _ _ _ => hnone, ?_, fun _ _ _ _ => hnone⟩
    intro p o _ _ _ _ _
    exact ⟨fun _ => hnone, fun d hd => absurd (hnone ▸ hd) (by simp)⟩
  · refine ⟨?_, ?_, ?_, ?_, ?_⟩
    · intro h
      exact absurd (Or.inl h) hempty
    · intro hnone2
      simp [processListing, hempty, hnone2]
    · intro p hp hple
      simp [processListing, hempty, hp, hple]
    · intro p o hp hp0 hne ho hpo
      have hcond : o ≠ 0 ∧ p < o := ⟨by linarith, hpo⟩
      constructor
      · intro hlt
        simp [processListing, hempty, hp, not_le.mpr hp0, hne, ho, hcond, hlt]
      · intro d hd
        simp only [processListing, hempty, or_self, if_false, ite_false, hp,
          not_le.mpr hp0, hne, ho, hcond, if_true, if_false] at hd
        simp only [ne_eq, hcond.1, not_false_eq_true, and_true, if_true, ite_true] at hd
        by_cases hlt : (o - p) / o * 100 < 10
        · rw [if_pos hlt] at hd
          exact absurd hd (by simp)
        · rw [if_neg hlt] at hd
          have h2 := Option.some.inj hd
          rw [← h2]
    · intro p hp hp0 hcases
      rcases hcases with hne | hnone2 | ⟨o, ho, hop⟩
      · norm_num [processListing, hempty, hp, not_le.mpr hp0, hne]
      · by_cases hne : jsTrim raw.originalPriceText = ""
        · norm_num [processListing, hempty, hp, not_le.mpr hp0, hne]
        · norm_num [processListing, hempty, hp, not_le.mpr hp0, hne, hnone2]
      · by_cases hne : jsTrim raw.originalPriceText = ""
        · norm_num [processListing, hempty, hp, not_le.mpr hp0, hne]
        · have hcond : ¬(o ≠ 0 ∧ p < o) := by
            rintro ⟨_, hlt⟩
            exact absurd hop (not_le.mpr hlt)
          norm_num [processListing, hempty, hp, not_le.mpr hp0, hne, ho, hcond]

/-- A raw listing that extracts cleanly (the parser reads "99" as 99 and
"40" as 40). -/
def goodRaw : RawListing where
  title := "Great Laptop Deal"
  currentPriceText := "40"
  originalPriceText := "99"
  imageUrl := none
  productUrl := some "/item/1"
  availability := "In Stock"

/-- The same listing with a whitespace-only title. -/
def emptyTitleRaw : RawListing := { goodRaw with title := "   " }

/-- The deal `goodRaw` extracts to: discount `(99-40)/99*100 ≈ 59.6`,
rounded to 60, and the relative product URL resolved against the base. -/
def extractedDeal : Deal where
  title := "Great Laptop Deal"
  originalPrice := some 99
  currentPrice := 40
  discountPercentage := 60
  url := "https://www.amazon.com/item/1"
  image := none
  site := "Amazon"
  availability := "In Stock"

/-- C6, witness: `goodRaw` yields `extractedDeal` whose stored discount is
the rounded computed discount, and the whitespace-titled listing is
skipped. -/
theorem c6_witness :
    processListing amazonConfig "https://page" goodRaw = some extractedDeal
    ∧ extractedDeal.discountPercentage = jsRoundQ ((99 - 40) / 99 * 100)
    ∧ processListing amazonConfig "https://page" emptyTitleRaw = none := by
  refine ⟨by decide, ?_, ?_⟩
  · exact ((c6_extraction_spec amazonConfig "https://page" goodRaw).2.2.2.1 40 99
      (by decide) (by decide) (by decide) (by decide) (by decide)).2 extractedDeal (by decide)
  · exact (c6_extraction_spec amazonConfig "https://page" emptyTitleRaw).1 (by decide)

/-! ## C9 — `parseAIResponse` -/

/-- Reduction of `parseAIResponse` once the JSON parse result is known and
non-null. -/
theorem parseAIResponse_eq_of_parse (text : String) (v : JSValue)
    (hj : jsonParse (aiJsonTarget text) = some v) (hne : v ≠ JSValue.null) :
    parseAIResponse text = some
      ⟨jsTruthy (getField v "isLegitimate"),
       max 0 (min 100 (jsNumOr (getField v "confidenceScore") 50)),
       max 0 (min 100 (jsNumOr (getField v "pricingGlitchProbability") 0)),
       (match getField v "analysis" with
        | some av => if jsTruthy (some av) then jsStringCoerce av else "No analysis provided"
        | none => "No analysis provided"),
       (match getField v "suspiciousFactors" with
        | some (JSValue.arr elems) => elems
        | _ => []),
       (match getField v "recommendation" with
        | some (JSValue.str s) =>
          if s = "HIGH" then Recommendation.HIGH
          else if s = "MEDIUM" then Recommendation.MEDIUM
          else if s = "LOW" then Recommendation.LOW
          else Recommendation.MEDIUM
        | _ => Recommendation.MEDIUM)⟩ := by
  cases v with
  | null => exact absurd rfl hne
  | bool b => unfold parseAIResponse; rw [hj]
  | num q => unfold parseAIResponse; rw [hj]
  | str s => unfold parseAIResponse; rw [hj]
  | arr xs => unfold parseAIResponse; rw [hj]
  | obj fields => unfold parseAIResponse; rw [hj]

/-- C9 (amended): `parseAIResponse` hands to `JSON.parse` the substring from
the **first** opening brace to the **last** closing brace (the regex
`/\{[\s\S]*\}/` is greedy), or the whole text if there is no such pair; it
throws exactly when that string fails to parse (or parses to the non-object
`null`, whose property access throws inside the same try).  On success the
numeric fields are clamped into [0,100]; a missing `confidenceScore`
becomes 50, a missing `pricingGlitchProbability` becomes 0, a
`recommendation` that is not a string becomes MEDIUM, and a
`suspiciousFactors` that is not an array becomes the empty list. -/
theorem c9_parseAIResponse_spec (text : String) :
    (parseAIResponse text = none ↔
      jsonParse (aiJsonTarget text) = none ∨ jsonParse (aiJsonTarget text) = some JSValue.null)
    ∧ (∀ r, parseAIResponse text = some r →
        0 ≤ r.confidenceScore ∧ r.confidenceScore ≤ 100
        ∧ 0 ≤ r.pricingGlitchProbability ∧ r.pricingGlitchProbability ≤ 100)
    ∧ (∀ v, jsonParse (aiJsonTarget text) = some v → v ≠ JSValue.null →
        ∀ r, parseAIResponse text = some r →
          (getField v "confidenceScore" = none → r.confidenceScore = 50)
          ∧ (getField v "pricingGlitchProbability" = none → r.pricingGlitchProbability = 0)
          ∧ ((∀ s, ¬ getField v "recommendation" = some (JSValue.str s)) →
              r.recommendationLevel = Recommendation.MEDIUM)
          ∧ ((∀ xs, ¬ getField v "suspiciousFactors" = some (JSValue.arr xs)) →
              r.suspiciousFactors = [])) := by
  refine ⟨?_, ?_, ?_⟩
  · cases hj : jsonParse (aiJsonTarget text) with
    | none => simp [parseAIResponse, hj]
    | some v =>
      cases v with
      | null => simp [parseAIResponse, hj]
      | bool b => rw [parseAIResponse_eq_of_parse text _ hj (by simp)]; simp
      | num q => rw [parseAIResponse_eq_of_parse text _ hj (by simp)]; simp
      | str s => rw [parseAIResponse_eq_of_parse text _ hj (by simp)]; simp
      | arr xs => rw [parseAIResponse_eq_of_parse text _ hj (by simp)]; simp
      | obj fs => rw [parseAIResponse_eq_of_parse text _ hj (by simp)]; simp
  · intro r hr
    cases hj : jsonParse (aiJsonTarget text) with
    | none => rw [parseAIResponse, hj] at hr; exact absurd hr (by simp)
    | some v =>
      by_cases hne : v = JSValue.null
      · subst hne
        rw [parseAIResponse, hj] at hr
        exact absurd hr (by simp)
      · rw [parseAIResponse_eq_of_parse text v hj hne] at hr
        obtain rfl := Option.some.inj hr
        exact ⟨le_max_left _ _, max_le (by norm_num) (min_le_left _ _),
          le_max_left _ _, max_le (by norm_num) (min_le_left _ _)⟩
  · intro v hv hne r hr
    rw [parseAIResponse_eq_of_parse text v hv hne] at hr
    obtain rfl := Option.some.inj hr
    refine ⟨?_, ?_, ?_, ?_⟩
    · intro hf
      show max 0 (min 100 (jsNumOr (getField v "confidenceScore") 50)) = 50
      rw [hf]; decide
    · intro hf
      show max 0 (min 100 (jsNumOr (getField v "pricingGlitchProbability") 0)) = 0
      rw [hf]; decide
    · intro hrec
      cases hf : getField v "recommendation" with
      | none => simp [hf]
      | some w =>
        cases w with
        | str s => exact absurd hf (hrec s)
        | null => simp [hf]
        | bool b => simp [hf]
        | num q => simp [hf]
        | arr xs => simp [hf]
        | obj fs => simp [hf]
    · intro hsf
      cases hf : getField v "suspiciousFactors" with
      | none => simp [hf]
      | some w =>
        cases w with
        | arr xs => exact absurd hf (hsf xs)
        | null => simp [hf]
        | bool b => simp [hf]
        | num q => simp [hf]
        | str s => simp [hf]
        | obj fs => simp [hf]

/-- C9, counterexample: the text `{"confidenceScore": 80} trailing }`
contains a perfectly parseable JSON object, but the greedy regex grabs
everything up to the *last* brace, `JSON.parse` fails on it, and
`parseAIResponse` throws — so the function does not "extract the first
balanced JSON object" and it throws although a JSON object is present.
Also, a *valid* `confidenceScore` of 0 is replaced by the default 50
(`Number(0) || 50`), not kept. -/
theorem c9_counterexample :
    parseAIResponse "\x7b\"confidenceScore\": 80\x7d trailing \x7d" = none
    ∧ (jsonParse "\x7b\"confidenceScore\": 80\x7d").isSome = true
    ∧ (parseAIResponse "\x7b\"confidenceScore\": 0\x7d").map (fun r => r.confidenceScore)
        = some 50 :=
  ⟨rfl, rfl, rfl⟩

/-- Prose followed by a single JSON object with an out-of-range
glitch probability and no other fields. -/
def glitchText : String := "prose \x7b\"pricingGlitchProbability\": 180\x7d"

/-- What `parseAIResponse` produces for `glitchText`: clamped probability,
defaulted confidence, analysis, factors and recommendation. -/
def glitchVerdict : PricingAnalysisResult :=
  ⟨false, 50, 100, "No analysis provided", [], Recommendation.MEDIUM⟩

/-- C9, witness: a braceless text throws; `glitchText` parses to
`glitchVerdict`, whose numeric fields are in range, whose missing
`confidenceScore` defaulted to 50, and whose missing recommendation and
factors defaulted to MEDIUM and `[]`. -/
theorem c9_witness :
    parseAIResponse "no json here" = none
    ∧ parseAIResponse glitchText = some glitchVerdict
    ∧ (0 ≤ glitchVerdict.confidenceScore ∧ glitchVerdict.confidenceScore ≤ 100
       ∧ 0 ≤ glitchVerdict.pricingGlitchProbability
       ∧ glitchVerdict.pricingGlitchProbability ≤ 100)
    ∧ glitchVerdict.confidenceScore = 50
    ∧ glitchVerdict.recommendationLevel = Recommendation.MEDIUM
    ∧ glitchVerdict.suspiciousFactors = [] := by
  have hp : parseAIResponse glitchText = some glitchVerdict := rfl
  have hj : jsonParse (aiJsonTarget glitchText)
      = some (JSValue.obj [("pricingGlitchProbability", JSValue.num 180)]) := rfl
  have hspec := (c9_parseAIResponse_spec glitchText).2.2 _ hj (by simp) glitchVerdict hp
  refine ⟨(c9_parseAIResponse_spec "no json here").1.mpr (Or.inl rfl), hp,
    (c9_parseAIResponse_spec glitchText).2.1 glitchVerdict hp,
    hspec.1 rfl, hspec.2.2.1 ?_, hspec.2.2.2 ?_⟩
  · intro s h
    exact absurd h (by simp [getField])
  · intro xs h
    exact absurd h (by simp [getField])

/-! ## Loop-step lemmas for `processOneDeal` -/

/-- A deal whose hash is already in the dedup set is dropped without any
further processing: the state is untouched. -/
theorem processOneDeal_seen (ai : AIOracle) (minD minC : ℚ) (st : FilterState) (d : Deal)
    (h : st.seen.contains (generateDealHash d) = true) :
    processOneDeal ai minD minC st d = st := by
  unfold processOneDeal
  rw [if_pos h]

/-- On a fresh hash, one loop iteration always records the hash, and either
leaves the accepted list unchanged or appends exactly one `FilteredDeal`
carrying this deal's data. -/
theorem processOneDeal_step (ai : AIOracle) (minD minC : ℚ) (st : FilterState) (d : Deal)
    (h : st.seen.contains (generateDealHash d) = false) :
    (processOneDeal ai minD minC st d).seen = generateDealHash d :: st.seen
    ∧ ((processOneDeal ai minD minC st d).out = st.out
       ∨ ∃ fd, fd.toDeal = d ∧ (processOneDeal ai minD minC st d).out = st.out ++ [fd]) := by
  unfold processOneDeal
  rw [if_neg (by simpa using h)]
  simp only []
  by_cases hgate : (validateDiscountMath d).valid = false
      ∧ (validateDiscountMath d).actualDiscount < 50
  · rw [if_pos hgate]
    exact ⟨rfl, Or.inl rfl⟩
  · rw [if_neg hgate]
    cases har : ai d with
    | none => exact ⟨rfl, Or.inl rfl⟩
    | some r =>
      simp only []
      by_cases hacc : (minD ≤ (validateDiscountMath d).actualDiscount
            ∨ 70 ≤ r.pricingGlitchProbability)
          ∧ minC ≤ calculateOverallScore (validateDiscountMath d) r (detectSuspiciousPricing d)
      · rw [if_pos hacc]
        exact ⟨rfl, Or.inr ⟨_, rfl, rfl⟩⟩
      · rw [if_neg hacc]
        exact ⟨rfl, Or.inl rfl⟩

/-- A deal that reaches the decision stage (fresh hash, math-valid, AI
verdict available) is appended — with its computed confidence score and the
AI's glitch probability — iff it qualifies as high-discount or pricing
glitch and meets the confidence threshold. -/
theorem processOneDeal_decision (ai : AIOracle) (minD minC : ℚ) (st : FilterState)
    (d : Deal) (r : PricingAnalysisResult)
    (h : st.seen.contains (generateDealHash d) = false)
    (hv : (validateDiscountMath d).valid = true)
    (har : ai d = some r) :
    (∃ fd, (processOneDeal ai minD minC st d).out = st.out ++ [fd]
      ∧ fd.toDeal = d
      ∧ fd.confidenceScore
          = calculateOverallScore (validateDiscountMath d) r (detectSuspiciousPricing d)
      ∧ fd.pricingGlitchProbability = r.pricingGlitchProbability)
    ↔ ((minD ≤ (validateDiscountMath d).actualDiscount ∨ 70 ≤ r.pricingGlitchProbability)
       ∧ minC ≤ calculateOverallScore (validateDiscountMath d) r (detectSuspiciousPricing d)) := by
  have hstep : ∀ (P : FilterState → Prop),
      (∀ hacc : (minD ≤ (validateDiscountMath d).actualDiscount
            ∨ 70 ≤ r.pricingGlitchProbability)
          ∧ minC ≤ calculateOverallScore (validateDiscountMath d) r (detectSuspiciousPricing d),
        P ⟨generateDealHash d :: st.seen, st.out ++
          [{ d with
              confidenceScore :=
                calculateOverallScore (validateDiscountMath d) r (detectSuspiciousPricing d)
              pricingGlitchProbability := r.pricingGlitchProbability
              filteringReason :=
                if 70 ≤ r.pricingGlitchProbability then
                  "Potential pricing glitch (" ++ ratToJsString r.pricingGlitchProbability
                    ++ "% probability)"
                else
                  "High discount deal ("
                    ++ ratToJsString (validateDiscountMath d).actualDiscount ++ "% off)"
              validationFlags := (validateDiscountMath d).flags
              aiAnalysis := r.analysis
              suspiciousFactors :=
                (detectSuspiciousPricing d).map JSValue.str ++ r.suspiciousFactors
              recommendationLevel := r.recommendationLevel }]⟩) →
      (∀ hacc : ¬((minD ≤ (validateDiscountMath d).actualDiscount
            ∨ 70 ≤ r.pricingGlitchProbability)
          ∧ minC ≤ calculateOverallScore (validateDiscountMath d) r (detectSuspiciousPricing d)),
        P ⟨generateDealHash d :: st.seen, st.out⟩) →
      P (processOneDeal ai minD minC st d) := by
    intro P hyes hno
    unfold processOneDeal
    rw [if_neg (by simpa using h), if_neg (by simp [hv]), har]
    simp only []
    by_cases hacc : (minD ≤ (validateDiscountMath d).actualDiscount
          ∨ 70 ≤ r.pricingGlitchProbability)
        ∧ minC ≤ calculateOverallScore (validateDiscountMath d) r (detectSuspiciousPricing d)
    · rw [if_pos hacc]
      exact hyes hacc
    · rw [if_neg hacc]
      exact hno hacc
  refine hstep
    (fun s =>
      (∃ fd, s.out = st.out ++ [fd]
        ∧ fd.toDeal = d
        ∧ fd.confidenceScore
            = calculateOverallScore (validateDiscountMath d) r (detectSuspiciousPricing d)
        ∧ fd.pricingGlitchProbability = r.pricingGlitchProbability)
      ↔ ((minD ≤ (validateDiscountMath d).actualDiscount ∨ 70 ≤ r.pricingGlitchProbability)
         ∧ minC ≤ calculateOverallScore (validateDiscountMath d) r (detectSuspiciousPricing d)))
    (fun hacc => ?_) (fun hacc => ?_)
  · simp only []
    constructor
    · intro _
      exact hacc
    · intro _
      exact ⟨_, rfl, rfl, rfl, rfl⟩
  · simp only []
    constructor
    · rintro ⟨fd, hfd, -, -, -⟩
      exfalso
      have := congrArg List.length hfd
      simp at this
    · intro hc
      exact absurd hc hacc

/-! ## Sort-order facts -/

/-- The descending comparator is transitive. -/
theorem dealSortLe_trans : ∀ (a b c : FilteredDeal),
    dealSortLe a b → dealSortLe b c → dealSortLe a c := by
  intro a b c hab hbc
  simp only [dealSortLe, decide_eq_true_iff] at *
  linarith

/-- The descending comparator is total. -/
theorem dealSortLe_total : ∀ (a b : FilteredDeal), dealSortLe a b || dealSortLe b a := by
  intro a b
  simp only [dealSortLe, Bool.or_eq_true, decide_eq_true_iff]
  exact le_total _ _

/-- The output of `filterDealsFrom` is sorted in descending order of
`confidenceScore + 0.5 * pricingGlitchProbability`. -/
theorem filterDealsFrom_sorted (ai : AIOracle) (deals : List Deal) (minD minC : ℚ)
    (maxR : ℕ) (seen₀ : List String) :
    (filterDealsFrom ai deals minD minC maxR seen₀).Pairwise
      (fun a b => dealSortKey b ≤ dealSortKey a) := by
  have h := List.sorted_mergeSort dealSortLe_trans dealSortLe_total
    (selectedDeals ai deals minD minC seen₀).out
  have h2 := h.imp (fun hb => by simpa [dealSortLe] using hb)
  exact h2.take

/-- The output of `filterDealsFrom` never exceeds `maxResults` entries. -/
theorem filterDealsFrom_length_le (ai : AIOracle) (deals : List Deal) (minD minC : ℚ)
    (maxR : ℕ) (seen₀ : List String) :
    (filterDealsFrom ai deals minD minC maxR seen₀).length ≤ maxR :=
  List.length_take_le _ _

/-! ## Dedup invariant of the loop -/

/-- Invariant of the `filterDeals` fold: accepted deals' hashes are
recorded in the seen-set, pairwise distinct, and disjoint from the dedup
state the service started with. -/
theorem foldl_processOneDeal_inv (ai : AIOracle) (minD minC : ℚ) (seen₀ : List String)
    (deals : List Deal) :
    ∀ (st : FilterState),
      (∀ fd ∈ st.out, generateDealHash fd.toDeal ∈ st.seen) →
      st.out.Pairwise (fun a b => generateDealHash a.toDeal ≠ generateDealHash b.toDeal) →
      (∀ s ∈ seen₀, s ∈ st.seen) →
      (∀ fd ∈ st.out, generateDealHash fd.toDeal ∉ seen₀) →
      (∀ fd ∈ (deals.foldl (processOneDeal ai minD minC) st).out,
          generateDealHash fd.toDeal ∈ (deals.foldl (processOneDeal ai minD minC) st).seen)
      ∧ (deals.foldl (processOneDeal ai minD minC) st).out.Pairwise
          (fun a b => generateDealHash a.toDeal ≠ generateDealHash b.toDeal)
      ∧ (∀ s ∈ seen₀, s ∈ (deals.foldl (processOneDeal ai minD minC) st).seen)
      ∧ (∀ fd ∈ (deals.foldl (processOneDeal ai minD minC) st).out,
          generateDealHash fd.toDeal ∉ seen₀) := by
  induction deals with
  | nil => intro st h1 h2 h3 h4; exact ⟨h1, h2, h3, h4⟩
  | cons d rest ih =>
    intro st h1 h2 h3 h4
    simp only [List.foldl_cons]
    by_cases hc : st.seen.contains (generateDealHash d) = true
    · rw [processOneDeal_seen ai minD minC st d hc]
      exact ih st h1 h2 h3 h4
    · have hc' : st.seen.contains (generateDealHash d) = false := by
        cases hb : st.seen.contains (generateDealHash d)
        · rfl
        · exact absurd hb hc
      have hdnot : generateDealHash d ∉ st.seen := by
        intro hm
        have hc2 : List.elem (generateDealHash d) st.seen = false := hc'
        rw [List.elem_eq_true_of_mem hm] at hc2
        simp at hc2
      obtain ⟨hseen, hout⟩ := processOneDeal_step ai minD minC st d hc'
      apply ih
      · intro fd hfd
        rw [hseen]
        rcases hout with hsame | ⟨fd', hfd', heq⟩
        · rw [hsame] at hfd
          exact List.mem_cons_of_mem _ (h1 fd hfd)
        · rw [heq] at hfd
          rcases List.mem_append.mp hfd with hold | hnew
          · exact List.mem_cons_of_mem _ (h1 fd hold)
          · rw [List.mem_singleton.mp hnew, hfd']
            exact List.mem_cons_self _ _
      · rcases hout with hsame | ⟨fd', hfd', heq⟩
        · rw [hsame]; exact h2
        · rw [heq]
          refine List.pairwise_append.mpr ⟨h2, List.pairwise_singleton _ _, ?_⟩
          intro a ha b hb
          rw [List.mem_singleton.mp hb, hfd']
          intro habs
          exact hdnot (habs ▸ h1 a ha)
      · intro s hs
        rw [hseen]
        exact List.mem_cons_of_mem _ (h3 s hs)
      · intro fd hfd
        rcases hout with hsame | ⟨fd', hfd', heq⟩
        · rw [hsame] at hfd
          exact h4 fd hfd
        · rw [heq] at hfd
          rcases List.mem_append.mp hfd with hold | hnew
          · exact h4 fd hold
          · rw [List.mem_singleton.mp hnew, hfd']
            intro habs
            exact hdnot (h3 _ habs)

/-! ## C7 — deduplication -/

/-- C7: two deals with the same site, the same current price, and titles
equal after lowercasing and trimming get the same identity hash; a deal
whose hash is already in the service's seen-set (whether recorded earlier
in this run or in a previous run of the same instance) is dropped without
further processing; and consequently the deals returned by a run have
pairwise-distinct hashes — at most one `FilteredDeal` per identity key —
none of which was seen before the run. -/
theorem c7_dedup_spec :
    (∀ d₁ d₂ : Deal, d₁.site = d₂.site → d₁.currentPrice = d₂.currentPrice →
        jsTrim (jsToLower d₁.title) = jsTrim (jsToLower d₂.title) →
        generateDealHash d₁ = generateDealHash d₂)
    ∧ (∀ (ai : AIOracle) (minD minC : ℚ) (st : FilterState) (d : Deal),
        st.seen.contains (generateDealHash d) = true →
        processOneDeal ai minD minC st d = st)
    ∧ (∀ (ai : AIOracle) (deals : List Deal) (minD minC : ℚ) (maxR : ℕ)
        (seen₀ : List String),
        (filterDealsFrom ai deals minD minC maxR seen₀).Pairwise
          (fun a b => generateDealHash a.toDeal ≠ generateDealHash b.toDeal)
        ∧ ∀ fd ∈ filterDealsFrom ai deals minD minC maxR seen₀,
            generateDealHash fd.toDeal ∉ seen₀) := by
  refine ⟨?_, processOneDeal_seen, ?_⟩
  · intro d₁ d₂ hs hp ht
    unfold generateDealHash
    rw [hs, hp, ht]
  · intro ai deals minD minC maxR seen₀
    obtain ⟨-, hpair, -, hnot⟩ := foldl_processOneDeal_inv ai minD minC seen₀ deals
      ⟨seen₀, []⟩ (by simp) (by simp) (fun s hs => hs) (by simp)
    constructor
    · have hperm : List.Perm (selectedDeals ai deals minD minC seen₀).out
          ((selectedDeals ai deals minD minC seen₀).out.mergeSort dealSortLe) :=
        (List.mergeSort_perm _ _).symm
      exact (hpair.perm hperm (fun hxy => Ne.symm hxy)).take
    · intro fd hfd
      apply hnot
      exact List.mem_mergeSort.mp ((List.take_sublist _ _).subset hfd)

/-- Same site/price as `laptopDeal`, title differing only in case/space. -/
def caseDealA : Deal := { laptopDeal with title := "Gadget Max Deluxe" }

/-- The case/space-variant of `caseDealA`. -/
def caseDealB : Deal := { laptopDeal with title := "  GADGET MAX DELUXE " }

/-- C7, witness: the two case-variant deals hash identically; a deal whose
hash is already in the seen-set is dropped with the state untouched; and a
two-deal run yields pairwise-distinct hashes. -/
theorem c7_witness :
    generateDealHash caseDealA = generateDealHash caseDealB
    ∧ processOneDeal testAI 90 60 ⟨[generateDealHash laptopDeal], []⟩ laptopDeal
        = ⟨[generateDealHash laptopDeal], []⟩
    ∧ (filterDealsFrom testAI [gadgetDeal, bargainDeal] 50 0 10 []).Pairwise
        (fun a b => generateDealHash a.toDeal ≠ generateDealHash b.toDeal) :=
  ⟨c7_dedup_spec.1 caseDealA caseDealB rfl rfl (by decide),
   c7_dedup_spec.2.1 testAI 90 60 ⟨[generateDealHash laptopDeal], []⟩ laptopDeal (by decide),
   (c7_dedup_spec.2.2 testAI [gadgetDeal, bargainDeal] 50 0 10 []).1⟩

/-! ## C1 — the acceptance decision and output shape of `filterDeals` -/

/-- C1 (amended): the output of `filterDeals` is the list of deals accepted
by the loop, sorted descending by `confidenceScore +
0.5*pricingGlitchProbability` and truncated to `maxResults` (so an
accepted deal can still be cut by the truncation); it is sorted and within
the bound; and a deal reaching the decision stage is accepted iff
(`actualDiscount ≥ minDiscount` OR `pricingGlitchProbability ≥ 70`) AND its
computed confidence score is at least `minConfidence`. -/
theorem c1_filterDeals_spec :
    ∀ (ai : AIOracle) (deals : List Deal) (minD minC : ℚ) (maxR : ℕ),
      filterDeals ai deals minD minC maxR
        = ((selectedDeals ai deals minD minC []).out.mergeSort dealSortLe).take maxR
      ∧ (filterDeals ai deals minD minC maxR).Pairwise
          (fun a b => dealSortKey b ≤ dealSortKey a)
      ∧ (filterDeals ai deals minD minC maxR).length ≤ maxR
      ∧ (∀ (st : FilterState) (d : Deal) (r : PricingAnalysisResult),
          st.seen.contains (generateDealHash d) = false →
          (validateDiscountMath d).valid = true →
          ai d = some r →
          ((∃ fd, (processOneDeal ai minD minC st d).out = st.out ++ [fd]
             ∧ fd.toDeal = d
             ∧ fd.confidenceScore = calculateOverallScore (validateDiscountMath d) r
                 (detectSuspiciousPricing d)
             ∧ fd.pricingGlitchProbability = r.pricingGlitchProbability)
            ↔ ((minD ≤ (validateDiscountMath d).actualDiscount
                ∨ 70 ≤ r.pricingGlitchProbability)
               ∧ minC ≤ calculateOverallScore (validateDiscountMath d) r
                   (detectSuspiciousPricing d)))) :=
  fun ai deals minD minC maxR =>
    ⟨rfl, filterDealsFrom_sorted ai deals minD minC maxR [],
     filterDealsFrom_length_le ai deals minD minC maxR [],
     fun st d r h hv har => processOneDeal_decision ai minD minC st d r h hv har⟩

/-- C1, counterexample to the claim as stated: with `maxResults = 1`, both
deals reach the decision stage and are accepted into the selection (second
conjunct of the claim's iff holds for both), yet only the first appears in
the output — membership in the returned list is **not** equivalent to the
acceptance condition once the truncation applies. -/
theorem c1_counterexample :
    (selectedDeals testAI [gadgetDeal, bargainDeal] 50 0 []).out.map (fun fd => fd.title)
      = ["Mega Discount Gadget Pro", "Another Bargain Machine"]
    ∧ ¬ "Another Bargain Machine"
        ∈ (filterDeals testAI [gadgetDeal, bargainDeal] 50 0 1).map (fun fd => fd.title) := by
  constructor
  · decide
  · have hs : (selectedDeals testAI [gadgetDeal, bargainDeal] 50 0 []).out.mergeSort dealSortLe
        = (selectedDeals testAI [gadgetDeal, bargainDeal] 50 0 []).out :=
      List.mergeSort_of_sorted (by decide)
    show ¬ _ ∈ (((selectedDeals testAI [gadgetDeal, bargainDeal] 50 0 []).out.mergeSort
        dealSortLe).take 1).map (fun fd => fd.title)
    rw [hs]
    decide

/-- C1, witness: the bound holds at a concrete run, and the decision-stage
iff applied to `laptopDeal` (60% real discount, glitch probability 80,
score 100 ≥ 60) is discharged concretely. -/
theorem c1_witness :
    (filterDeals testAI [laptopDeal] 90 60 5).length ≤ 5
    ∧ ((∃ fd, (processOneDeal testAI 90 60 ⟨[], []⟩ laptopDeal).out = [] ++ [fd]
         ∧ fd.toDeal = laptopDeal
         ∧ fd.confidenceScore = calculateOverallScore (validateDiscountMath laptopDeal)
             testVerdict (detectSuspiciousPricing laptopDeal)
         ∧ fd.pricingGlitchProbability = testVerdict.pricingGlitchProbability)
        ↔ ((90 ≤ (validateDiscountMath laptopDeal).actualDiscount
            ∨ (70 : ℚ) ≤ testVerdict.pricingGlitchProbability)
           ∧ (60 : ℚ) ≤ calculateOverallScore (validateDiscountMath laptopDeal) testVerdict
               (detectSuspiciousPricing laptopDeal))) :=
  ⟨(c1_filterDeals_spec testAI [laptopDeal] 90 60 5).2.2.1,
   (c1_filterDeals_spec testAI [laptopDeal] 90 60 5).2.2.2 ⟨[], []⟩ laptopDeal testVerdict
     (by decide) (by decide) rfl⟩

/-! ## C2 — the math gate and the glitch path -/

/-- C2, counterexample: `deal49` has `actualDiscount = 49`, the oracle
reports glitch probability 80 ≥ 70, and its score would clear a
`minConfidence` of 0 — the claim's conditions — yet `filterDeals` returns
nothing: the deal is dropped at the math-validation gate before the AI
stage is ever reached, so the glitch path cannot rescue it. -/
theorem c2_counterexample :
    (validateDiscountMath deal49).actualDiscount = 49
    ∧ (70 : ℚ) ≤ testVerdict.pricingGlitchProbability
    ∧ (0 : ℚ) ≤ calculateOverallScore (validateDiscountMath deal49) testVerdict
        (detectSuspiciousPricing deal49)
    ∧ filterDeals testAI [deal49] 50 0 10 = [] := by
  refine ⟨by decide, by decide, by decide, ?_⟩
  show (((selectedDeals testAI [deal49] 50 0 []).out).mergeSort dealSortLe).take 10 = []
  have hempty : (selectedDeals testAI [deal49] 50 0 []).out.isEmpty = true := by decide
  rw [List.isEmpty_iff.mp hempty, List.mergeSort_nil, List.take_nil]

/-- C2 (amended): the skip condition `!valid && actualDiscount < 50` is
equivalent to `!valid` (invalidity forces a sub-50 discount), so **every**
math-invalid deal — in particular one with `actualDiscount = 49` — is
dropped before the AI stage, glitch signal or not; the glitch path only
benefits math-valid deals (`actualDiscount ≥ 50`): such a deal with
`pricingGlitchProbability ≥ 70` and a score at or above `minConfidence` is
accepted even when its discount is below the caller's minimum. -/
theorem c2_math_gate_spec (ai : AIOracle) (minD minC : ℚ) (st : FilterState) (d : Deal)
    (h : st.seen.contains (generateDealHash d) = false) :
    ((validateDiscountMath d).valid = false →
      processOneDeal ai minD minC st d = ⟨generateDealHash d :: st.seen, st.out⟩)
    ∧ (∀ r, (validateDiscountMath d).valid = true → ai d = some r →
        70 ≤ r.pricingGlitchProbability →
        minC ≤ calculateOverallScore (validateDiscountMath d) r (detectSuspiciousPricing d) →
        ∃ fd, (processOneDeal ai minD minC st d).out = st.out ++ [fd] ∧ fd.toDeal = d) := by
  constructor
  · intro hv
    have hlt := validateDiscountMath_invalid_lt50 d hv
    unfold processOneDeal
    rw [if_neg (by simpa using h)]
    simp only []
    rw [if_pos ⟨hv, hlt⟩]
  · intro r hv har hglitch hconf
    obtain ⟨fd, hfd, hto, -, -⟩ := (processOneDeal_decision ai minD minC st d r h hv har).mpr
      ⟨Or.inr hglitch, hconf⟩
    exact ⟨fd, hfd, hto⟩

/-- C2, witness: the 49%-deal is skipped (hash recorded, nothing accepted)
while `laptopDeal` (60% < minDiscount 90, glitch 80) is accepted via the
glitch path. -/
theorem c2_witness :
    processOneDeal testAI 90 60 ⟨[], []⟩ deal49 = ⟨[generateDealHash deal49], []⟩
    ∧ ∃ fd, (processOneDeal testAI 90 60 ⟨[], []⟩ laptopDeal).out = [] ++ [fd]
        ∧ fd.toDeal = laptopDeal :=
  ⟨(c2_math_gate_spec testAI 90 60 ⟨[], []⟩ deal49 (by decide)).1 (by decide),
   (c2_math_gate_spec testAI 90 60 ⟨[], []⟩ laptopDeal (by decide)).2 testVerdict
     (by decide) rfl (by decide) (by decide)⟩

/-! ## C10 — the truncated hash is not injective -/

/-- C10: the dedup hash keeps only the first 32 base64 characters — the
first 24 bytes of `site-title-price` — so `redDeal` and `blueDeal`, whose
titles differ only beyond that prefix, collide; running `filterDeals` over
both returns only the first, silently dropping the second as a
"duplicate", although the second alone is accepted by the very same run
parameters. -/
theorem c10_hash_collision :
    redDeal.title ≠ blueDeal.title
    ∧ generateDealHash redDeal = generateDealHash blueDeal
    ∧ (filterDeals testAI [redDeal, blueDeal] 50 0 10).map (fun fd => fd.title)
        = ["SuperWidget Deluxe Edition Red"]
    ∧ (filterDeals testAI [blueDeal] 50 0 10).map (fun fd => fd.title)
        = ["SuperWidget Deluxe Edition Blue"] := by
  refine ⟨by decide, by decide, ?_, ?_⟩
  · have hs : (selectedDeals testAI [redDeal, blueDeal] 50 0 []).out.mergeSort dealSortLe
        = (selectedDeals testAI [redDeal, blueDeal] 50 0 []).out :=
      List.mergeSort_of_sorted (by decide)
    show (((selectedDeals testAI [redDeal, blueDeal] 50 0 []).out.mergeSort
        dealSortLe).take 10).map (fun fd => fd.title) = _
    rw [hs]
    decide
  · have hs : (selectedDeals testAI [blueDeal] 50 0 []).out.mergeSort dealSortLe
        = (selectedDeals testAI [blueDeal] 50 0 []).out :=
      List.mergeSort_of_sorted (by decide)
    show (((selectedDeals testAI [blueDeal] 50 0 []).out.mergeSort
        dealSortLe).take 10).map (fun fd => fd.title) = _
    rw [hs]
    decide
